import Mathlib

/-!
Verification of the data-transformation pipeline of `dashboard.py`
(e-commerce analytics dashboard).

The working table is a list of rows. Pandas semantics are embedded as
follows: a nullable column of type `τ` becomes `Option τ` (both a missing
value and a float `NaN` are `none`); currency amounts and durations are
exact rationals `ℚ`; timestamps are integers `ℤ` (any order-embedding of
timestamps suffices for the range filter); `Series.sum` skips nulls and is
`0` on the empty series; `Series.mean` skips nulls and is `NaN` (`none`)
when no non-null value exists; `Series.nunique` counts distinct values;
`groupby` drops null keys and produces groups in ascending key order.

`DataFrame.sort_values` with its default `kind` is not a stable sort, so
the two sorting steps of the source (the date sort on line 169 and the
descending revenue sort inside `get_top_total_item_revenue_categories`)
are embedded as relations: an output is any permutation of the input that
is sorted by the key. Deterministic parts of the pipeline are executable
functions.
-/

namespace Dashboard

/-- One row of the working table (§3 of the spec, "OrderLineRecord"),
with the derived `total_item_revenue` column. -/
structure Row where
  order_id : String
  customer_id : String
  product_category_name_english : Option String
  price : Option ℚ
  freight_value : Option ℚ
  order_delivered_customer_date : Option ℤ
  review_score : Option ℤ
  delivery_duration : Option ℚ
  total_item_revenue : Option ℚ
deriving DecidableEq, Repr

/-- Build a row from its nine column values, in declaration order. -/
def mkRow (oid cid : String) (cat : Option String) (p f : Option ℚ)
    (d : Option ℤ) (rs : Option ℤ) (dd : Option ℚ) (tir : Option ℚ) : Row :=
  ⟨oid, cid, cat, p, f, d, rs, dd, tir⟩

/-- Addition on nullable numbers, as pandas `+` on two columns:
null (NaN) in either operand propagates. -/
def optAdd : Option ℚ → Option ℚ → Option ℚ
  | some a, some b => some (a + b)
  | _, _ => none

/-- Line 167: `df['total_item_revenue'] = df['price'] + df['freight_value']`. -/
def deriveRevenue (t : List Row) : List Row :=
  t.map fun r => { r with total_item_revenue := optAdd r.price r.freight_value }

/-- Row predicate of the filter on lines 192-195:
`(date >= start) & (date <= end)`; a null date compares `False` on both
sides in pandas, so such a row never matches. -/
def rowInRange (s e : ℤ) (r : Row) : Bool :=
  match r.order_delivered_customer_date with
  | some d => decide (s ≤ d) && decide (d ≤ e)
  | none => false

/-- Lines 192-195: `filtered_df = df[(df[date] >= start) & (df[date] <= end)]`. -/
def filteredDf (t : List Row) (s e : ℤ) : List Row :=
  t.filter (rowInRange s e)

/-- Minimum of an integer list, `none` when empty
(pandas `Series.min`, which skips nulls, applied to the non-null values). -/
def listMin : List ℤ → Option ℤ
  | [] => none
  | x :: xs =>
    match listMin xs with
    | none => some x
    | some m => some (min x m)

/-- Maximum of an integer list, `none` when empty. -/
def listMax : List ℤ → Option ℤ
  | [] => none
  | x :: xs =>
    match listMax xs with
    | none => some x
    | some m => some (max x m)

/-- Line 172: `min_date = df['order_delivered_customer_date'].min()`
(pandas `min` skips null dates). -/
def minDate (t : List Row) : Option ℤ :=
  listMin (t.filterMap (·.order_delivered_customer_date))

/-- Line 173: `max_date = df['order_delivered_customer_date'].max()`. -/
def maxDate (t : List Row) : Option ℤ :=
  listMax (t.filterMap (·.order_delivered_customer_date))

/-- Lines 190-201: the filter is applied only when the date-range widget
value has exactly two elements; otherwise `filtered_df = df`. -/
def applyDateFilter (dateRange : List ℤ) (t : List Row) : List Row :=
  match dateRange with
  | [s, e] => filteredDf t s e
  | _ => t

/-- pandas `Series.mean` applied to the list of non-null values of a
column: `NaN` (embedded as `none`) when the list is empty, the exact
average otherwise. -/
def mean (xs : List ℚ) : Option ℚ :=
  if xs.isEmpty then none else some (xs.sum / xs.length)

/-- Lines 24-27: `df[['delivery_duration', 'review_score']].mean()`
reshaped into (metric, average_value) rows. -/
def analyze_delivery_and_review (t : List Row) : List (String × Option ℚ) :=
  [("delivery_duration", mean (t.filterMap (·.delivery_duration))),
   ("review_score", mean (t.filterMap (fun r => r.review_score.map (fun z => (z : ℚ)))))]

/-- Lines 143-144: `df['delivery_duration'].mean()` and
`df['review_score'].mean()`. -/
def avgDeliveryAndReview (t : List Row) : Option ℚ × Option ℚ :=
  (mean (t.filterMap (·.delivery_duration)),
   mean (t.filterMap (fun r => r.review_score.map (fun z => (z : ℚ)))))

/-- The three scalar KPIs computed on lines 101-103. -/
structure KPI where
  total_revenue : ℚ
  total_orders : ℕ
  total_customers : ℕ
deriving DecidableEq, Repr

/-- pandas `Series.nunique`: the number of distinct values. -/
def nunique (xs : List String) : ℕ :=
  xs.dedup.length

/-- Lines 100-103 of `display_kpis`: `df['total_item_revenue'].sum()`
(nulls skipped, `0` on empty), `df['order_id'].nunique()`,
`df['customer_id'].nunique()`. -/
def display_kpis (t : List Row) : KPI :=
  ⟨(t.filterMap (·.total_item_revenue)).sum,
   nunique (t.map (·.order_id)),
   nunique (t.map (·.customer_id))⟩

/-- The two recoverable error kinds named by the spec (§7). The source
raises neither; these are used to state the spec's claimed behavior for
comparison with the code's. -/
inductive PipelineError where
  | invalidRange
  | noData
deriving DecidableEq, Repr

/-- Modelled from the spec (§4.3, §7), for comparison with the code: a
filter that rejects a range with start after end with `InvalidRangeError`.
The source's filter on lines 190-195 has no failure path. -/
def filterClaimed (t : List Row) (s e : ℤ) : Except PipelineError (List Row) :=
  if e < s then Except.error PipelineError.invalidRange
  else Except.ok (filteredDf t s e)

/-- Modelled from the spec (§4.4, §7), for comparison with the code: the
two KPI means with `NoDataError` signalled when a mean is undefined. The
source computes the pandas means directly and shows the resulting NaN. -/
def kpiMeansClaimed (t : List Row) : Except PipelineError (ℚ × ℚ) :=
  match mean (t.filterMap (·.delivery_duration)),
      mean (t.filterMap (fun r => r.review_score.map (fun z => (z : ℚ)))) with
  | some a, some b => Except.ok (a, b)
  | _, _ => Except.error PipelineError.noData

/-- Insert an element in front of the first list element it is `le`-below:
the step of a stable insertion sort. -/
def insertLe {α : Type _} (le : α → α → Bool) (a : α) : List α → List α
  | [] => [a]
  | b :: l => if le a b then a :: b :: l else b :: insertLe le a l

/-- Stable insertion sort. Used to model the ascending key order that
pandas `groupby` produces, and to express what a stable sort would
return where the spec claims one. -/
def isort {α : Type _} (le : α → α → Bool) : List α → List α
  | [] => []
  | a :: l => insertLe le a (isort le l)

/-- Codepoint-lexicographic comparison of character lists. -/
def charsLe : List Char → List Char → Bool
  | [], _ => true
  | _ :: _, [] => false
  | a :: as, b :: bs =>
    if a.toNat < b.toNat then true
    else if b.toNat < a.toNat then false
    else charsLe as bs

/-- Codepoint-lexicographic `≤` on strings, the order in which pandas
compares category names. -/
def strLe (a b : String) : Bool := charsLe a.toList b.toList

/-- Strict codepoint-lexicographic `<` on strings. -/
def strLt (a b : String) : Bool := strLe a b && ! strLe b a

/-- Boolean `≤` on integers. -/
def intLe (a b : ℤ) : Bool := decide (a ≤ b)

/-- The group keys produced by pandas `groupby` over a string column:
the distinct non-null values in ascending order. -/
def sortedKeysStr (xs : List String) : List String := (isort strLe xs).dedup

/-- The group keys produced by pandas `groupby` over an integer column:
the distinct non-null values in ascending order. -/
def sortedKeysInt (xs : List ℤ) : List ℤ := (isort intLe xs).dedup

/-- Summed `total_item_revenue` of the rows in the given category
(groupby sum: nulls skipped, `0` for a group with no non-null value). -/
def sumRevenueFor (t : List Row) (c : String) : ℚ :=
  ((t.filter (fun r => r.product_category_name_english == some c)).filterMap
    (·.total_item_revenue)).sum

/-- Lines 14-17 of `get_top_total_item_revenue_categories`:
`groupby('product_category_name_english')['total_item_revenue'].sum()`
with `reset_index()`: one (category, summed revenue) pair per distinct
non-null category, in ascending category order.  Null-category rows are
dropped by groupby. -/
def groupSumRevenue (t : List Row) : List (String × ℚ) :=
  (sortedKeysStr (t.filterMap (·.product_category_name_english))).map
    (fun c => (c, sumRevenueFor t c))

/-- The descending-revenue comparison of line 18's
`sort_values(by='total_item_revenue', ascending=False)`. -/
def revDesc (p q : String × ℚ) : Bool := decide (q.2 ≤ p.2)

/-- Lines 14-20 as a relation. `sort_values` with its default `kind` is
not a stable sort, so its output is constrained only to be a permutation
of the grouped table that is nonincreasing in summed revenue;
`head(top_n)` then keeps the first `top_n` entries. -/
def TopCategories (t : List Row) (n : ℕ) (out : List (String × ℚ)) : Prop :=
  ∃ ys : List (String × ℚ), ys.Perm (groupSumRevenue t)
    ∧ ys.Pairwise (fun p q => revDesc p q = true)
    ∧ out = ys.take n

/-- The default of the `top_n` parameter on line 13. -/
def top_n_default : ℕ := 10

/-- The tie-break claimed by the spec for the top-N table: any two
adjacent entries of equal summed revenue appear in ascending
category-name order. -/
def TieBreakAsc (l : List (String × ℚ)) : Prop :=
  l.Chain' (fun p q => p.2 = q.2 → strLt p.1 q.1 = true)

/-- The key comparison of line 169's
`df.sort_values(by="order_delivered_customer_date")`: ascending by
delivery date, null dates last (pandas default `na_position='last'`). -/
def dateLe (r s : Row) : Bool :=
  match r.order_delivered_customer_date, s.order_delivered_customer_date with
  | some a, some b => decide (a ≤ b)
  | some _, none => true
  | none, some _ => false
  | none, none => true

/-- Line 169 as a relation: `sort_values` with its default `kind` is not
a stable sort, so the sorted working table is constrained only to be a
permutation of the derived table that is nondecreasing under `dateLe`. -/
def SortedByDate (t u : List Row) : Prop :=
  u.Perm t ∧ u.Pairwise (fun a b => dateLe a b = true)

/-- Non-null delivery durations of the rows carrying the given review
score. -/
def durationsFor (t : List Row) (k : ℤ) : List ℚ :=
  (t.filter (fun r => r.review_score == some k)).filterMap (·.delivery_duration)

/-- Lines 71-75 of `plot_delivery_performance_by_review`:
`groupby('review_score')['delivery_duration'].mean()` with
`reset_index()`: null scores dropped, keys ascending, one mean delivery
duration per present score. -/
def groupMeanByScore (t : List Row) : List (ℤ × Option ℚ) :=
  (sortedKeysInt (t.filterMap (·.review_score))).map
    (fun k => (k, mean (durationsFor t k)))

/-- Concrete table for the top-categories claims: two categories of equal
summed revenue. -/
def exCatTable : List Row :=
  [mkRow "o1" "c" (some "a") none none none none none (some 5),
   mkRow "o2" "c" (some "b") none none none none none (some 5)]

/-- Concrete table for the review-score claim: scores 3, 3, 5 with
durations 2, 4, 10, plus one null-score row that grouping must drop. -/
def exReviewTable : List Row :=
  [mkRow "o1" "c" none none none none (some 3) (some 2) none,
   mkRow "o2" "c" none none none none (some 3) (some 4) none,
   mkRow "o3" "c" none none none none (some 5) (some 10) none,
   mkRow "o4" "c" none none none none none (some 100) none]

/-- A dated row, for the sort-stage claims. -/
def exRowA : Row := mkRow "a" "c" none none none (some 0) none none none

/-- A second row with the same delivery date as `exRowA`. -/
def exRowB : Row := mkRow "b" "c" none none none (some 0) none none none

end Dashboard

namespace Dashboard

/-- Claim C1: every row of the filtered table has a non-null delivery date
lying in the inclusive range, and the filtered table is a sublist of the
base table (a subset of its rows, introducing no duplicates). -/
theorem filteredDf_range_subset (t : List Row) (s e : ℤ) (_hse : s ≤ e) :
    (∀ r ∈ filteredDf t s e,
      ∃ d, r.order_delivered_customer_date = some d ∧ s ≤ d ∧ d ≤ e)
    ∧ (∀ r ∈ filteredDf t s e, r.order_delivered_customer_date ≠ none)
    ∧ List.Sublist (filteredDf t s e) t
    ∧ (∀ r : Row, (filteredDf t s e).count r ≤ t.count r) := by
  refine ⟨?_, ?_, List.filter_sublist t, fun r => (List.filter_sublist t).count_le r⟩
  · intro r hr
    have h := (List.mem_filter.mp hr).2
    cases hd : r.order_delivered_customer_date with
    | none => rw [rowInRange, hd] at h; exact absurd h (by simp)
    | some d =>
      rw [rowInRange, hd] at h
      simp only [Bool.and_eq_true, decide_eq_true_eq] at h
      exact ⟨d, rfl, h.1, h.2⟩
  · intro r hr hnone
    have h := (List.mem_filter.mp hr).2
    rw [rowInRange, hnone] at h
    exact absurd h (by simp)

/-- Witness for C1: the theorem applied at a one-row table and range `[0,1]`. -/
theorem filteredDf_range_subset_w :
    List.Sublist
      (filteredDf [mkRow "o" "c" none none none (some 0) none none none] 0 1)
      [mkRow "o" "c" none none none (some 0) none none none] :=
  (filteredDf_range_subset _ 0 1 (by decide)).2.2.1

/-- Claim C3: for every row of the derived table, `total_item_revenue` is
the null-propagating sum of `price` and `freight_value`: null if either
input is null, and exactly `price + freight_value` when both are present. -/
theorem deriveRevenue_spec (t : List Row) (r : Row) (hr : r ∈ deriveRevenue t) :
    r.total_item_revenue = optAdd r.price r.freight_value
    ∧ ((r.price = none ∨ r.freight_value = none) → r.total_item_revenue = none)
    ∧ (∀ p f, r.price = some p → r.freight_value = some f →
        r.total_item_revenue = some (p + f)) := by
  obtain ⟨r₀, -, rfl⟩ := List.mem_map.mp hr
  refine ⟨rfl, ?_, ?_⟩
  · rintro (hp | hf)
    · have hp' : r₀.price = none := hp
      show optAdd r₀.price r₀.freight_value = none
      rw [hp']
      rfl
    · have hf' : r₀.freight_value = none := hf
      show optAdd r₀.price r₀.freight_value = none
      rw [hf']
      cases r₀.price <;> rfl
  · intro p f hp hf
    have hp' : r₀.price = some p := hp
    have hf' : r₀.freight_value = some f := hf
    show optAdd r₀.price r₀.freight_value = some (p + f)
    rw [hp', hf']
    rfl

/-- Witness for C3: the theorem applied to the one-row table with
`price = 3` and `freight_value = 2`; its derived revenue is `3 + 2`. -/
theorem deriveRevenue_spec_w :
    (mkRow "o" "c" none (some 3) (some 2) none none none (some (3 + 2))).total_item_revenue
      = some ((3 : ℚ) + 2) :=
  (deriveRevenue_spec [mkRow "o" "c" none (some 3) (some 2) none none none none]
      (mkRow "o" "c" none (some 3) (some 2) none none none (some (3 + 2)))
      (List.mem_singleton.mpr rfl)).2.2 3 2 rfl rfl

/-- Claim C10: a date-range selection with fewer than two endpoints (none,
or only a start date) applies no filter: the pipeline passes the base
table through unchanged. -/
theorem applyDateFilter_short_range (dr : List ℤ) (t : List Row)
    (h : dr.length < 2) : applyDateFilter dr t = t := by
  match dr with
  | [] => rfl
  | [s] => rfl
  | s :: e :: rest => simp only [List.length_cons] at h; omega

/-- Witness for C10: a single-endpoint selection leaves a one-row table
unchanged. -/
theorem applyDateFilter_short_range_w :
    applyDateFilter [0] [mkRow "o" "c" none none none (some 4) none none none]
      = [mkRow "o" "c" none none none (some 4) none none none] :=
  applyDateFilter_short_range [0] _ (by decide)

/-- Counterexample for C6: on a reversed range (start 5, end 3) the code's
filter (lines 190-195) performs no validation and returns the empty table,
while the spec-claimed behavior fails with `InvalidRangeError`. The claim
that the code fails with `InvalidRangeError` is therefore false. -/
theorem filteredDf_reversed_range_cex :
    filteredDf [mkRow "o" "c" none none none (some 4) none none none] 5 3 = []
    ∧ filterClaimed [mkRow "o" "c" none none none (some 4) none none none] 5 3
        = Except.error PipelineError.invalidRange :=
  ⟨rfl, rfl⟩

/-- Claim C6 (amended): on a range with start after end the filter raises
nothing and returns the empty row set; the base table is not mutated (the
filter is a pure function producing a new list). -/
theorem filteredDf_reversed_range_empty (t : List Row) (s e : ℤ)
    (h : e < s) : filteredDf t s e = [] := by
  unfold filteredDf
  rw [List.filter_eq_nil_iff]
  intro r _
  cases hd : r.order_delivered_customer_date with
  | none => simp [rowInRange, hd]
  | some d => simp only [rowInRange, hd, Bool.and_eq_true, decide_eq_true_eq]; omega

/-- Witness for C6 (amended): the empty result at a concrete reversed
range over a one-row table. -/
theorem filteredDf_reversed_range_empty_w :
    filteredDf [mkRow "o" "c" none none none (some 4) none none none] 5 3 = [] :=
  filteredDf_reversed_range_empty _ 5 3 (by decide)

/-- `listMin` of a list bounds every element of the list from below. -/
theorem listMin_le : ∀ (l : List ℤ) (m : ℤ), listMin l = some m →
    ∀ a ∈ l, m ≤ a := by
  intro l
  induction l with
  | nil => intro m h; exact absurd h (by simp [listMin])
  | cons x xs ih =>
    intro m h a ha
    rw [listMin] at h
    cases hxs : listMin xs with
    | none =>
      rw [hxs] at h
      have hx : m = x := (Option.some.injEq ..).mp h.symm
      rcases List.mem_cons.mp ha with h1 | hmem
      · rw [hx, h1]
      · cases xs with
        | nil => exact absurd hmem (by simp)
        | cons y ys =>
          rw [listMin] at hxs
          cases h2 : listMin ys with
          | none => rw [h2] at hxs; exact absurd hxs (by simp)
          | some m2 => rw [h2] at hxs; exact absurd hxs (by simp)
    | some m' =>
      rw [hxs] at h
      have hx : m = min x m' := (Option.some.injEq ..).mp h.symm
      rcases List.mem_cons.mp ha with h1 | hmem
      · rw [hx, h1]; exact min_le_left _ _
      · rw [hx]; exact le_trans (min_le_right _ _) (ih m' hxs a hmem)

/-- `listMax` of a list bounds every element of the list from above. -/
theorem listMax_ge : ∀ (l : List ℤ) (M : ℤ), listMax l = some M →
    ∀ a ∈ l, a ≤ M := by
  intro l
  induction l with
  | nil => intro M h; exact absurd h (by simp [listMax])
  | cons x xs ih =>
    intro M h a ha
    rw [listMax] at h
    cases hxs : listMax xs with
    | none =>
      rw [hxs] at h
      have hx : M = x := (Option.some.injEq ..).mp h.symm
      rcases List.mem_cons.mp ha with h1 | hmem
      · rw [hx, h1]
      · cases xs with
        | nil => exact absurd hmem (by simp)
        | cons y ys =>
          rw [listMax] at hxs
          cases h2 : listMax ys with
          | none => rw [h2] at hxs; exact absurd hxs (by simp)
          | some M2 => rw [h2] at hxs; exact absurd hxs (by simp)
    | some M' =>
      rw [hxs] at h
      have hx : M = max x M' := (Option.some.injEq ..).mp h.symm
      rcases List.mem_cons.mp ha with h1 | hmem
      · rw [hx, h1]; exact le_max_left _ _
      · rw [hx]; exact le_trans (ih M' hxs a hmem) (le_max_right _ _)

/-- Claim C7: filtering at the table's own date extremes (lines 172-173)
returns exactly the rows with a non-null delivery date — the identity law
modulo null-date rows. -/
theorem filteredDf_at_extremes (t : List Row) (m M : ℤ)
    (hm : minDate t = some m) (hM : maxDate t = some M) :
    filteredDf t m M = t.filter (fun r => r.order_delivered_customer_date.isSome) := by
  unfold filteredDf
  apply List.filter_congr
  intro r hr
  cases hd : r.order_delivered_customer_date with
  | none => simp [rowInRange, hd]
  | some d =>
    have hdm : d ∈ t.filterMap (·.order_delivered_customer_date) :=
      List.mem_filterMap.mpr ⟨r, hr, hd⟩
    have h1 : m ≤ d := listMin_le _ _ hm d hdm
    have h2 : d ≤ M := listMax_ge _ _ hM d hdm
    simp [rowInRange, hd, h1, h2]

/-- Witness for C7: a two-row table with dates 2 and 7 and one null-date
row; filtering at its extremes keeps exactly the dated rows. -/
theorem filteredDf_at_extremes_w :
    filteredDf [mkRow "o1" "c" none none none (some 2) none none none,
        mkRow "o2" "c" none none none none none none none,
        mkRow "o3" "c" none none none (some 7) none none none] 2 7
      = List.filter (fun r => r.order_delivered_customer_date.isSome)
        [mkRow "o1" "c" none none none (some 2) none none none,
        mkRow "o2" "c" none none none none none none none,
        mkRow "o3" "c" none none none (some 7) none none none] :=
  filteredDf_at_extremes _ 2 7 (by decide) (by decide)

/-- Restricting a table to the rows where a column is non-null does not
change the list of the column's non-null values. -/
theorem filterMap_filter_isSome (g : Row → Option ℚ) (t : List Row) :
    (t.filter (fun r => (g r).isSome)).filterMap g = t.filterMap g := by
  induction t with
  | nil => rfl
  | cons r t ih =>
    cases hg : g r <;>
      simp [List.filter_cons, List.filterMap_cons, hg, ih]

/-- Claim C4: the KPI summary sums `total_item_revenue` over the rows where
it is non-null, and counts distinct `order_id` and `customer_id` values,
each bounded by the row count; a table where distinct customers exceed
distinct orders shows `total_customers <= total_orders` is not guaranteed. -/
theorem display_kpis_spec :
    (∀ t : List Row,
      (display_kpis t).total_revenue
        = ((t.filter (fun r => r.total_item_revenue.isSome)).filterMap
            (·.total_item_revenue)).sum
      ∧ (display_kpis t).total_orders ≤ t.length
      ∧ (display_kpis t).total_customers ≤ t.length)
    ∧ (display_kpis [mkRow "o" "c1" none none none none none none none,
          mkRow "o" "c2" none none none none none none none]).total_orders
        < (display_kpis [mkRow "o" "c1" none none none none none none none,
          mkRow "o" "c2" none none none none none none none]).total_customers := by
  refine ⟨fun t => ⟨?_, ?_, ?_⟩, by decide⟩
  · rw [filterMap_filter_isSome]
    rfl
  · calc (display_kpis t).total_orders ≤ (t.map (·.order_id)).length :=
          (List.dedup_sublist _).length_le
      _ = t.length := List.length_map ..
  · calc (display_kpis t).total_customers ≤ (t.map (·.customer_id)).length :=
          (List.dedup_sublist _).length_le
      _ = t.length := List.length_map ..

/-- Counterexample for C5: on the empty table the code yields the three
zero KPIs, but no `NoDataError` exists anywhere in the source: the two
means are computed by pandas `mean` and come out as NaN (embedded `none`)
inside a normally returned table, while the claimed behavior signals
`NoDataError`. The claim that the code raises `NoDataError` is false. -/
theorem kpi_empty_no_noData_cex :
    display_kpis [] = ⟨0, 0, 0⟩
    ∧ analyze_delivery_and_review [] =
        [("delivery_duration", none), ("review_score", none)]
    ∧ avgDeliveryAndReview [] = (none, none)
    ∧ kpiMeansClaimed [] = Except.error PipelineError.noData :=
  ⟨rfl, rfl, rfl, rfl⟩

/-- Claim C5 (amended): on the empty table the KPI summary yields
`total_revenue = 0`, `total_orders = 0`, `total_customers = 0`; the two
means evaluate to NaN (`none`) and are returned normally — no error is
raised; and for any table in which a metric has zero non-null values the
metric-means table carries a null mean for it, never zero. -/
theorem kpi_empty_amended :
    display_kpis [] = ⟨0, 0, 0⟩
    ∧ avgDeliveryAndReview [] = (none, none)
    ∧ (∀ t : List Row, t.filterMap (·.delivery_duration) = [] →
        (analyze_delivery_and_review t).head? = some ("delivery_duration", none)) := by
  refine ⟨rfl, rfl, fun t h => ?_⟩
  show some ("delivery_duration", mean (t.filterMap (·.delivery_duration)))
    = some ("delivery_duration", none)
  rw [h]
  rfl

/-- Witness for C5 (amended): the null-mean clause applied at the empty
table. -/
theorem kpi_empty_amended_w :
    (analyze_delivery_and_review []).head? = some ("delivery_duration", none) :=
  kpi_empty_amended.2.2 [] rfl

/-- Inserting an element permutes consing it in front. -/
theorem insertLe_perm {α : Type _} (le : α → α → Bool) (a : α) (l : List α) :
    (insertLe le a l).Perm (a :: l) := by
  induction l with
  | nil => exact List.Perm.refl _
  | cons b l ih =>
    show (if le a b then a :: b :: l else b :: insertLe le a l).Perm (a :: b :: l)
    by_cases h : le a b = true
    · rw [if_pos h]
    · rw [if_neg h]
      exact (List.Perm.cons b ih).trans (List.Perm.swap a b l)

/-- Insertion sort permutes its input. -/
theorem isort_perm {α : Type _} (le : α → α → Bool) (l : List α) :
    (isort le l).Perm l := by
  induction l with
  | nil => exact List.Perm.refl _
  | cons a l ih => exact (insertLe_perm le a (isort le l)).trans (List.Perm.cons a ih)

/-- Inserting into a `le`-sorted list keeps it sorted, given totality and
transitivity of the comparison. -/
theorem insertLe_pairwise {α : Type _} {le : α → α → Bool}
    (htot : ∀ x y, le x y = true ∨ le y x = true)
    (htrans : ∀ x y z, le x y = true → le y z = true → le x z = true)
    (a : α) : ∀ l : List α, l.Pairwise (fun x y => le x y = true) →
      (insertLe le a l).Pairwise (fun x y => le x y = true) := by
  intro l
  induction l with
  | nil => intro _; exact List.pairwise_singleton ..
  | cons b l ih =>
    intro hp
    obtain ⟨hb, hpl⟩ := List.pairwise_cons.mp hp
    show ((if le a b then a :: b :: l else b :: insertLe le a l).Pairwise _)
    by_cases h : le a b = true
    · rw [if_pos h]
      refine List.pairwise_cons.mpr ⟨?_, hp⟩
      intro x hx
      rcases List.mem_cons.mp hx with h1 | hmem
      · rw [h1]; exact h
      · exact htrans a b x h (hb x hmem)
    · rw [if_neg h]
      have hba : le b a = true := (htot a b).resolve_left h
      refine List.pairwise_cons.mpr ⟨?_, ih hpl⟩
      intro x hx
      rcases List.mem_cons.mp ((insertLe_perm le a l).mem_iff.mp hx) with h1 | hmem
      · rw [h1]; exact hba
      · exact hb x hmem

/-- Insertion sort sorts, given totality and transitivity of the
comparison. -/
theorem isort_pairwise {α : Type _} {le : α → α → Bool}
    (htot : ∀ x y, le x y = true ∨ le y x = true)
    (htrans : ∀ x y z, le x y = true → le y z = true → le x z = true)
    (l : List α) :
    (isort le l).Pairwise (fun x y => le x y = true) := by
  induction l with
  | nil => exact List.Pairwise.nil
  | cons a l ih => exact insertLe_pairwise htot htrans a (isort le l) ih

/-- The groupby key list over an integer column is strictly ascending. -/
theorem sortedKeysInt_lt (xs : List ℤ) :
    (sortedKeysInt xs).Pairwise (· < ·) := by
  have h1 : (isort intLe xs).Pairwise (fun x y => intLe x y = true) :=
    isort_pairwise (fun x y => by simp [intLe]; omega)
      (fun x y z h1 h2 => by simp [intLe] at h1 h2 ⊢; omega) xs
  have h2 : (sortedKeysInt xs).Pairwise (fun x y => intLe x y = true) :=
    List.Pairwise.sublist (List.dedup_sublist _) h1
  have h3 : (sortedKeysInt xs).Nodup := List.nodup_dedup _
  exact (h2.and h3).imp fun h =>
    lt_of_le_of_ne (by simpa [intLe] using h.1) h.2

/-- Membership in the groupby key list is membership in the column. -/
theorem mem_sortedKeysInt (xs : List ℤ) (k : ℤ) :
    k ∈ sortedKeysInt xs ↔ k ∈ xs :=
  (List.mem_dedup).trans (isort_perm intLe xs).mem_iff

/-- Membership in the groupby key list over a string column. -/
theorem mem_sortedKeysStr (xs : List String) (c : String) :
    c ∈ sortedKeysStr xs ↔ c ∈ xs :=
  (List.mem_dedup).trans (isort_perm strLe xs).mem_iff

/-- Concrete evaluation of the grouped revenue table of `exCatTable`. -/
theorem groupSumRevenue_exCat :
    groupSumRevenue exCatTable = [("a", 5), ("b", 5)] := by
  have h1 : groupSumRevenue exCatTable
      = [("a", sumRevenueFor exCatTable "a"), ("b", sumRevenueFor exCatTable "b")] := rfl
  have h2 : sumRevenueFor exCatTable "a" = 5 := by
    have h : sumRevenueFor exCatTable "a" = List.sum [(5 : ℚ)] := rfl
    rw [h]; simp
  have h3 : sumRevenueFor exCatTable "b" = 5 := by
    have h : sumRevenueFor exCatTable "b" = List.sum [(5 : ℚ)] := rfl
    rw [h]; simp
  rw [h1, h2, h3]

/-- Claim C2 (amended): the top-N aggregation groups by category with
null categories dropped, sums revenue per group, and returns at most N
entries in nonincreasing revenue order, with distinct category keys; the
default N is 10.  The relative order of entries with equal summed revenue
is not specified (the sort is not stable), which is the only part of the
original claim that fails. -/
theorem topCategories_spec :
    (∀ (t : List Row) (n : ℕ) (out : List (String × ℚ)),
      TopCategories t n out →
      out.length ≤ n
      ∧ (∀ i j : Fin out.length, i < j → (out.get j).2 ≤ (out.get i).2)
      ∧ (∀ c v, (c, v) ∈ out →
          (∃ r ∈ t, r.product_category_name_english = some c)
          ∧ v = sumRevenueFor t c)
      ∧ (out.map Prod.fst).Nodup)
    ∧ top_n_default = 10 := by
  refine ⟨?_, rfl⟩
  rintro t n out ⟨ys, hperm, hdesc, rfl⟩
  refine ⟨?_, ?_, ?_, ?_⟩
  · exact le_trans (le_of_eq (List.length_take ..)) (min_le_left ..)
  · have hp : (ys.take n).Pairwise (fun p q => revDesc p q = true) :=
      List.Pairwise.sublist (List.take_sublist n ys) hdesc
    have hp' : (ys.take n).Pairwise (fun p q => q.2 ≤ p.2) :=
      hp.imp fun h => by simpa [revDesc] using h
    exact fun i j hij => List.pairwise_iff_get.mp hp' i j hij
  · intro c v hcv
    have h1 : (c, v) ∈ ys := (List.take_sublist n ys).subset hcv
    have h2 : (c, v) ∈ groupSumRevenue t := hperm.mem_iff.mp h1
    obtain ⟨c', hc', heq⟩ := List.mem_map.mp h2
    have hc : c' = c := congrArg Prod.fst heq
    have hv : sumRevenueFor t c' = v := congrArg Prod.snd heq
    subst hc
    refine ⟨?_, hv.symm⟩
    have h3 : c' ∈ t.filterMap (·.product_category_name_english) :=
      (mem_sortedKeysStr _ _).mp hc'
    obtain ⟨r, hr, hr2⟩ := List.mem_filterMap.mp h3
    exact ⟨r, hr, hr2⟩
  · have h0 : (groupSumRevenue t).map Prod.fst
        = sortedKeysStr (t.filterMap (·.product_category_name_english)) := by
      rw [groupSumRevenue, List.map_map,
        show (Prod.fst ∘ fun c => (c, sumRevenueFor t c)) = id from rfl, List.map_id]
    have h1 : ((groupSumRevenue t).map Prod.fst).Nodup := by
      rw [h0]; exact List.nodup_dedup _
    have h2 : (ys.map Prod.fst).Nodup := (hperm.map Prod.fst).nodup_iff.mpr h1
    have h3 : (ys.take n).map Prod.fst = (ys.map Prod.fst).take n :=
      List.map_take ..
    rw [h3]
    exact h2.sublist (List.take_sublist ..)

/-- Witness for C2 (amended): a concrete top-2 result over `exCatTable`. -/
theorem topCategories_spec_w :
    ([("a", (5 : ℚ)), ("b", 5)] : List (String × ℚ)).length ≤ 2 :=
  (topCategories_spec.1 exCatTable 2 [("a", 5), ("b", 5)]
    ⟨[("a", 5), ("b", 5)],
      by rw [groupSumRevenue_exCat],
      by decide, by decide⟩).1

/-- Counterexample for C2: on a table with two categories of equal summed
revenue, the code's sort contract (unstable `sort_values`) admits the
output in descending category order, which violates the claimed
ascending-name tie-break.  The tie-break is therefore not a property of
the code. -/
theorem topCategories_tiebreak_cex :
    TopCategories exCatTable 2 [("b", 5), ("a", 5)]
    ∧ ¬ TieBreakAsc [("b", 5), ("a", 5)] := by
  constructor
  · refine ⟨[("b", 5), ("a", 5)], ?_, by decide, by decide⟩
    rw [groupSumRevenue_exCat]
    exact List.Perm.swap ("a", 5) ("b", 5) []
  · intro h
    have h2 := (List.chain'_cons.mp h).1 rfl
    exact absurd h2 (by decide)

/-- Concrete evaluation of the per-score mean table of `exReviewTable`. -/
theorem groupMeanByScore_exReview :
    groupMeanByScore exReviewTable = [(3, some 3), (5, some 10)] := by
  have h1 : groupMeanByScore exReviewTable
      = [(3, mean [2, 4]), (5, mean [10])] := rfl
  have h2 : mean [(2 : ℚ), 4] = some 3 := by norm_num [mean]
  have h3 : mean [(10 : ℚ)] = some 10 := by norm_num [mean]
  rw [h1, h2, h3]

/-- Claim C8: grouping by review score drops null scores, produces keys in
strictly ascending order, one entry per score present in the filtered
table (absent scores are absent, not zero-filled), each carrying the mean
delivery duration of its group; on scores 3, 3, 5 with durations 2, 4, 10
the result is [(3, 3), (5, 10)]. -/
theorem groupMeanByScore_spec :
    (∀ t : List Row,
      ((groupMeanByScore t).map Prod.fst).Pairwise (· < ·)
      ∧ (∀ k : ℤ, (∃ v, (k, v) ∈ groupMeanByScore t) ↔
          (∃ r ∈ t, r.review_score = some k))
      ∧ (∀ k v, (k, v) ∈ groupMeanByScore t → v = mean (durationsFor t k)))
    ∧ groupMeanByScore exReviewTable = [(3, some 3), (5, some 10)] := by
  refine ⟨fun t => ⟨?_, ?_, ?_⟩, groupMeanByScore_exReview⟩
  · have h0 : (groupMeanByScore t).map Prod.fst
        = sortedKeysInt (t.filterMap (·.review_score)) := by
      rw [groupMeanByScore, List.map_map,
        show (Prod.fst ∘ fun k => (k, mean (durationsFor t k))) = id from rfl, List.map_id]
    rw [h0]
    exact sortedKeysInt_lt _
  · intro k
    constructor
    · rintro ⟨v, hv⟩
      obtain ⟨k', hk', heq⟩ := List.mem_map.mp hv
      have hk : k' = k := congrArg Prod.fst heq
      subst hk
      have h1 : k' ∈ t.filterMap (·.review_score) := (mem_sortedKeysInt _ _).mp hk'
      obtain ⟨r, hr, hr2⟩ := List.mem_filterMap.mp h1
      exact ⟨r, hr, hr2⟩
    · rintro ⟨r, hr, hr2⟩
      refine ⟨mean (durationsFor t k), List.mem_map.mpr ⟨k, ?_, rfl⟩⟩
      exact (mem_sortedKeysInt _ _).mpr (List.mem_filterMap.mpr ⟨r, hr, hr2⟩)
  · intro k v hv
    obtain ⟨k', hk', heq⟩ := List.mem_map.mp hv
    have hk : k' = k := congrArg Prod.fst heq
    have hv' : mean (durationsFor t k') = v := congrArg Prod.snd heq
    rw [← hv', hk]

/-- Witness for C8: the mean clause applied to score 3 of the concrete
table. -/
theorem groupMeanByScore_spec_w :
    some (3 : ℚ) = mean (durationsFor exReviewTable 3) :=
  (groupMeanByScore_spec.1 exReviewTable).2.2 3 (some 3)
    (by rw [groupMeanByScore_exReview]; exact List.mem_cons_self _ _)

/-- Counterexample for C9: on two equal-date rows the code's sort contract
(unstable `sort_values`) admits the reversed output, while the claimed
stable sort — computed here by the stable insertion sort `isort` — must
return the rows in their original order.  The stability part of the claim
is therefore not a property of the code. -/
theorem sortStage_stability_cex :
    SortedByDate (deriveRevenue [exRowA, exRowB]) [exRowB, exRowA]
    ∧ [exRowB, exRowA] ≠ isort dateLe (deriveRevenue [exRowA, exRowB]) :=
  ⟨⟨by decide, by decide⟩, by decide⟩

/-- Claim C9 (amended): every table the sort stage (line 169) can hand to
the downstream stages is nondecreasing in delivery date with null-date
rows at the end, and holds exactly the rows of the derived table; the
sort is not guaranteed stable. -/
theorem sortStage_spec :
    ∀ (raw u : List Row), SortedByDate (deriveRevenue raw) u →
      (∀ i j : Fin u.length, i < j → dateLe (u.get i) (u.get j) = true)
      ∧ (∀ i j : Fin u.length, i < j →
          (u.get i).order_delivered_customer_date = none →
          (u.get j).order_delivered_customer_date = none)
      ∧ (∀ r : Row, u.count r = (deriveRevenue raw).count r) := by
  rintro raw u ⟨hperm, hpair⟩
  refine ⟨fun i j hij => List.pairwise_iff_get.mp hpair i j hij, ?_,
    fun r => hperm.count_eq r⟩
  intro i j hij hnone
  have h := List.pairwise_iff_get.mp hpair i j hij
  cases hd : (u.get j).order_delivered_customer_date with
  | none => rfl
  | some d =>
    simp only [dateLe, hnone, hd] at h
    exact Bool.noConfusion h

/-- Witness for C9 (amended): the row-preservation clause at a one-row
table. -/
theorem sortStage_spec_w :
    [exRowA].count exRowA = (deriveRevenue [exRowA]).count exRowA :=
  (sortStage_spec [exRowA] [exRowA] ⟨by decide, by decide⟩).2.2 exRowA

end Dashboard
